import Mathlib

/-!
Shallow embedding of the pointer/window event bridge of
`src/engine/src/mac-core.mm` (class `MCMacPlatformCore`).

Host-OS queries (window under a point, screen/window coordinate mapping,
the event clock, the OS-reported mouse location) are modelled as an
explicit environment record; notifications sent to the application core
(`m_callback -> Send...`) and window handle retain/release are modelled
as an emitted event trace.  Machine integers are modelled as `Nat`/`Int`
with explicit reductions modulo `2 ^ 32` where the source relies on
unsigned wrap-around.
-/

namespace MacCore

/-- `MCPoint`: a screen/window point with 16-bit signed integer
coordinates (modelled as unbounded `Int`; all claim-relevant values are
in range). -/
structure MCPoint where
  x : Int
  y : Int
deriving DecidableEq

/-- Notifications emitted by the pointer state machine: the
`m_callback -> Send...` upcalls, cursor operations, and window handle
retain/release. -/
inductive MouseEv where
  | mouseDown (w b count : Nat)
  | mouseUp (w b count : Nat)
  | mouseRelease (w b : Nat) (synthetic : Bool)
  | mouseMove (w : Nat) (loc : MCPoint)
  | mouseDrag (w b : Nat)
  | mouseEnter (w : Nat)
  | mouseLeave (w : Nat)
  | resetCursor
  | cursorCheck (w : Nat)
  | retainWin (w : Nat)
  | releaseWin (w : Nat)
deriving DecidableEq

/-- The mouse-related fields of `MCMacPlatformCore`.  Windows
(`MCPlatformWindowRef`) are identified by `Nat` ids, `none` standing for
the nil pointer. -/
structure PointerState where
  mouse_buttons : Nat
  mouse_grabbed : Bool
  mouse_grabbed_explicit : Bool
  mouse_drag_button : Nat
  mouse_click_count : Nat
  mouse_last_click_time : Nat
  mouse_last_click_screen_position : MCPoint
  mouse_last_click_button : Nat
  mouse_was_control_click : Bool
  mouse_position : MCPoint
  mouse_screen_position : MCPoint
  mouse_window : Option Nat
  mouse_cursor_locked : Bool
  mouse_modifiers : Nat
deriving DecidableEq

/-- The sentinel `0xffffffff` stored in `m_mouse_drag_button` when no
drag is in progress. -/
def dragNone : Nat := 0xffffffff

/-- Modelled from the spec: the command-modifier bit
(`kMCPlatformModifierCommand`), declared in a platform header that is
not under `src/`; its exact bit position is immaterial, only that it is
a fixed single-bit mask. -/
def kMCPlatformModifierCommand : Nat := 4

/-- Host environment consulted by the pointer state machine: the window
locator (`GetWindowAtPoint`), per-window coordinate maps
(`MapPointFromScreenToWindow` / `MapPointFromWindowToScreen`), the event
clock (`GetEventTime`), the configuration globals `MCdoubletime`,
`MCdoubledelta`, `MCdragdelta`, and the OS-reported mouse location
(`[NSEvent mouseLocation]` already mapped to an `MCPoint`). -/
structure MouseEnv where
  windowAt : MCPoint → Option Nat
  mapScreenToWindow : Nat → MCPoint → MCPoint
  mapWindowToScreen : Nat → MCPoint → MCPoint
  eventTime : Nat
  doubletime : Nat
  doubledelta : Nat
  dragdelta : Nat
  mouseLocation : MCPoint

/-- Unsigned 32-bit subtraction `a - b` (the source computes
`t_event_time - m_mouse_last_click_time` on `uint32_t`). -/
def sub32 (a b : Nat) : Nat := (a + 2 ^ 32 - b % 2 ^ 32) % 2 ^ 32

/-- `n & ~(1 << b)` (clears bit `b`), as in
`m_mouse_buttons &= ~(1 << p_button)`: the complement is the 32-bit one,
the button bitmask being a 32-bit unsigned integer. -/
def clearBit (n b : Nat) : Nat := n &&& (0xffffffff ^^^ (1 <<< b))

/-- `MCMacPlatformCore::GrabPointer` (mac-core.mm:1439). -/
def GrabPointer (s : PointerState) (p_window : Option Nat) : PointerState :=
  -- If we are grabbing for the given window already, just mark explicit.
  if s.mouse_grabbed ∧ p_window = s.mouse_window then
    { s with mouse_grabbed_explicit := true }
  -- If the mouse window is already w, then just grab.
  else if p_window = s.mouse_window then
    { s with mouse_grabbed := true, mouse_grabbed_explicit := true }
  -- Otherwise do nothing - the mouse window must be w for us to grab.
  else
    s

/-- `MCMacPlatformCore::UngrabPointer` (mac-core.mm:1461). -/
def UngrabPointer (s : PointerState) : PointerState :=
  -- If buttons are down, then ungrab will happen when they are released.
  if s.mouse_buttons ≠ 0 then s
  else { s with mouse_grabbed := false, mouse_grabbed_explicit := false }

/-- `MCMacPlatformCore::HandleMousePress` (mac-core.mm:1472).  Returns
the new state together with the emitted notifications.  In the release
branch the source dereferences `m_mouse_window`; with no mouse window
that branch is modelled as emitting nothing (presses with no window are
ignored, so the branch is not normally reachable without a window). -/
def HandleMousePress (env : MouseEnv) (s : PointerState) (p_button : Nat)
    (p_new_state : Bool) : PointerState × List MouseEv :=
  let t_state := s.mouse_buttons.testBit p_button
  -- If the state is not different from the new state, do nothing.
  if p_new_state = t_state then (s, [])
  -- If we are mouse downing with no window, then do nothing.
  else if p_new_state ∧ s.mouse_window = none then (s, [])
  else
    -- Update the state.
    let t_buttons :=
      if p_new_state then s.mouse_buttons ||| (1 <<< p_button)
      else clearBit s.mouse_buttons p_button
    -- Record whether it was an explicit grab.
    let t_grabbed_explicit := s.mouse_grabbed_explicit
    let s1 := { s with mouse_buttons := t_buttons }
    -- If mouse buttons are zero, ungrab and reset the drag button.
    let s2 :=
      if t_buttons = 0 then
        { s1 with mouse_grabbed := false, mouse_grabbed_explicit := false,
                  mouse_drag_button := dragNone }
      else s1
    -- If mouse buttons are non-zero, then grab.
    let s3 := if t_buttons ≠ 0 then { s2 with mouse_grabbed := true } else s2
    -- Control-click on button 0 is dispatched as button 2.
    let remapDown : Prop :=
      p_button = 0 ∧ s3.mouse_modifiers &&& kMCPlatformModifierCommand ≠ 0 ∧
        p_new_state = true
    let b1 := if remapDown then 2 else p_button
    let s4 := if remapDown then { s3 with mouse_was_control_click := true } else s3
    let b2 :=
      if p_new_state = false ∧ s4.mouse_was_control_click ∧ b1 = 0 then 2 else b1
    if p_new_state then
      -- Get the time of the mouse press event.
      let t_event_time := env.eventTime
      -- Click within double click time and radius on the same button?
      let t_inc : Prop :=
        sub32 t_event_time s4.mouse_last_click_time < env.doubletime ∧
        (s4.mouse_last_click_screen_position.x -
            s4.mouse_screen_position.x).natAbs < env.doubledelta ∧
        (s4.mouse_last_click_screen_position.y -
            s4.mouse_screen_position.y).natAbs < env.doubledelta ∧
        s4.mouse_last_click_button = b2
      let s5 := { s4 with
        mouse_click_count := if t_inc then s4.mouse_click_count + 1 else 0,
        mouse_last_click_button := b2,
        mouse_last_click_screen_position := s4.mouse_screen_position }
      match s5.mouse_window with
      | some w => (s5, [MouseEv.mouseDown w b2 s5.mouse_click_count])
      | none => (s5, [])
    else
      match s4.mouse_window with
      | none => (s4, [])
      | some w =>
        let t_global_pos := env.mapWindowToScreen w s4.mouse_position
        let t_new_mouse_window := env.windowAt t_global_pos
        let s5 := { s4 with mouse_was_control_click := false }
        -- If the mouse was grabbed explicitly, we send mouseUp not mouseRelease.
        if t_new_mouse_window = s5.mouse_window ∨ t_grabbed_explicit then
          let s6 :=
            if b2 = s5.mouse_last_click_button then
              { s5 with mouse_last_click_time := env.eventTime }
            else s5
          (s6, [MouseEv.mouseUp w b2 s6.mouse_click_count])
        else
          -- Any release causes us to cancel multi-click tracking.
          let s6 := { s5 with mouse_click_count := 0, mouse_last_click_time := 0 }
          (s6, [MouseEv.mouseRelease w b2 false])

/-- The tail of `MCMacPlatformCore::HandleMouseMove` (mac-core.mm:1694):
update the cached screen position, translate to window-local
coordinates, and emit move / drag / cursor-change as appropriate.
`t_window_changed` records whether the enter/leave block ran. -/
def HandleMouseMoveTail (env : MouseEnv) (s : PointerState) (p_screen_loc : MCPoint)
    (t_window_changed : Bool) : PointerState × List MouseEv :=
  -- Regardless of whether we post a mouse move, update the screen mouse position.
  let s1 := { s with mouse_screen_position := p_screen_loc }
  match s1.mouse_window with
  | none => (s1, [])
  | some w =>
    let t_window_loc := env.mapScreenToWindow w p_screen_loc
    if t_window_changed ∨ t_window_loc.x ≠ s1.mouse_position.x ∨
        t_window_loc.y ≠ s1.mouse_position.y then
      let s2 := { s1 with mouse_position := t_window_loc }
      -- If this is the start of a drag, then send a mouse drag.
      let t_drag : Prop :=
        s2.mouse_buttons ≠ 0 ∧ s2.mouse_drag_button = dragNone ∧
          ((p_screen_loc.x - s2.mouse_last_click_screen_position.x).natAbs ≥
              env.dragdelta ∨
           (p_screen_loc.y - s2.mouse_last_click_screen_position.y).natAbs ≥
              env.dragdelta)
      let s3 :=
        if t_drag then { s2 with mouse_drag_button := s2.mouse_last_click_button }
        else s2
      let t_drag_evs :=
        if t_drag then [MouseEv.mouseDrag w s2.mouse_last_click_button] else []
      (s3, [MouseEv.mouseMove w t_window_loc] ++ t_drag_evs ++ [MouseEv.cursorCheck w])
    else
      (s1, [MouseEv.cursorCheck w])

/-- `MCMacPlatformCore::HandleMouseMove` (mac-core.mm:1648). -/
def HandleMouseMove (env : MouseEnv) (s : PointerState) (p_screen_loc : MCPoint) :
    PointerState × List MouseEv :=
  -- First compute the window that should be active now: if the mouse is
  -- grabbed the mouse window does not change, otherwise locate it.
  let t_new_mouse_window :=
    if s.mouse_grabbed then s.mouse_window else env.windowAt p_screen_loc
  -- If the mouse window has changed, then we must exit/enter.
  if t_new_mouse_window = s.mouse_window then
    HandleMouseMoveTail env s p_screen_loc false
  else
    let t_leave :=
      match s.mouse_window with
      | some w => [MouseEv.mouseLeave w]
      | none => []
    let t_enter :=
      match t_new_mouse_window with
      | some w => [MouseEv.mouseEnter w]
      | none => []
    -- If there is no mouse window, reset the cursor to default
    -- (unless the cursor is locked).
    let t_reset :=
      if t_new_mouse_window = none ∧ s.mouse_cursor_locked = false then
        [MouseEv.resetCursor]
      else []
    let t_release :=
      match s.mouse_window with
      | some w => [MouseEv.releaseWin w]
      | none => []
    let t_retain :=
      match t_new_mouse_window with
      | some w => [MouseEv.retainWin w]
      | none => []
    let s1 := { s with mouse_window := t_new_mouse_window }
    let r := HandleMouseMoveTail env s1 p_screen_loc true
    (r.1, t_leave ++ t_enter ++ t_reset ++ t_release ++ t_retain ++ r.2)

/-- The one-step state reset at the end of `HandleMouseSync`
(mac-core.mm:1756-1760); note it does not touch
`m_mouse_grabbed_explicit`. -/
def syncReset (s : PointerState) : PointerState :=
  { s with mouse_grabbed := false, mouse_drag_button := dragNone,
           mouse_click_count := 0, mouse_last_click_time := 0,
           mouse_was_control_click := false }

/-- The synthesized-release notifications of the `HandleMouseSync` loop:
for each of buttons 0, 1, 2 whose bit is set, a release flagged
synthesized, with a control-click on button 0 remapped to button 2. -/
def syncReleases (s : PointerState) (w : Nat) : List MouseEv :=
  (([0, 1, 2].filter fun i => s.mouse_buttons.testBit i).map fun i =>
    MouseEv.mouseRelease w
      (if s.mouse_was_control_click ∧ i = 0 then 2 else i) true)

/-- `MCMacPlatformCore::HandleMouseSync` (mac-core.mm:1738): clear
buttons 0-2 (emitting synthesized releases if a mouse window is
current), reset grab/drag/click tracking, and re-run motion handling at
the OS-reported mouse location. -/
def HandleMouseSync (env : MouseEnv) (s : PointerState) :
    PointerState × List MouseEv :=
  let (s1, t_rel_evs) :=
    match s.mouse_window with
    | none => (s, [])
    | some w =>
      ([0, 1, 2].foldl
        (fun (acc : PointerState × List MouseEv) i =>
          if acc.1.mouse_buttons.testBit i then
            ({ acc.1 with mouse_buttons := clearBit acc.1.mouse_buttons i },
             acc.2 ++ [MouseEv.mouseRelease w
               (if s.mouse_was_control_click ∧ i = 0 then 2 else i) true])
          else acc)
        (s, []))
  let s2 := syncReset s1
  let t_location := env.mouseLocation
  let r := HandleMouseMove env s2 t_location
  (r.1, t_rel_evs ++ r.2)

/-- The pointer operations a claim sequence may perform.  `press b` /
`release b` are `HandleMousePress b true/false`, `move p` is
`HandleMouseMove p`, `grab w` / `ungrab` are `GrabPointer` /
`UngrabPointer`, `sync` is `HandleMouseSync`. -/
inductive MouseOp where
  | press (b : Nat)
  | release (b : Nat)
  | move (p : MCPoint)
  | grab (w : Option Nat)
  | ungrab
  | sync
deriving DecidableEq

/-- One pointer operation, with its host environment. -/
def mouseStep (env : MouseEnv) (s : PointerState) :
    MouseOp → PointerState × List MouseEv
  | MouseOp.press b => HandleMousePress env s b true
  | MouseOp.release b => HandleMousePress env s b false
  | MouseOp.move p => HandleMouseMove env s p
  | MouseOp.grab w => (GrabPointer s w, [])
  | MouseOp.ungrab => (UngrabPointer s, [])
  | MouseOp.sync => HandleMouseSync env s

/-- Run a sequence of pointer operations, returning for each step the
state after it and the notifications it emitted. -/
def runTrace (s : PointerState) :
    List (MouseEnv × MouseOp) → List (PointerState × List MouseEv)
  | [] => []
  | step :: rest =>

      let r := mouseStep step.1 s step.2
      (r.1, r.2) :: runTrace r.1 rest

/-- The state after running a sequence of pointer operations. -/
def runEnd (s : PointerState) (steps : List (MouseEnv × MouseOp)) : PointerState :=
  steps.foldl (fun st step => (mouseStep step.1 st step.2).1) s

/-- The freshly constructed pointer state: no buttons down, no grab, no
window, all click/drag tracking clear. -/
def initPointerState : PointerState where
  mouse_buttons := 0
  mouse_grabbed := false
  mouse_grabbed_explicit := false
  mouse_drag_button := dragNone
  mouse_click_count := 0
  mouse_last_click_time := 0
  mouse_last_click_screen_position := ⟨0, 0⟩
  mouse_last_click_button := 0
  mouse_was_control_click := false
  mouse_position := ⟨0, 0⟩
  mouse_screen_position := ⟨0, 0⟩
  mouse_window := none
  mouse_cursor_locked := false
  mouse_modifiers := 0

/-! ### Blocking-wait coordinator (`WaitForEvent` / `ScheduleCallback`) -/

/-- The wait-coordinator fields of `MCMacPlatformCore`: the
event-checking counter (`m_event_checking_enabled`, an integer counter
declared in a header not under `src/`), the `m_wait_broken` flag, and
the pending callback queue `m_callbacks` (each callback function/context
pair is abstracted to a `Nat` id). -/
structure WaitState where
  event_checking : Int
  wait_broken : Bool
  callbacks : List Nat
deriving DecidableEq

/-- Observable actions of one `WaitForEvent` call: executing a queued
callback, and requesting the next native event from the host
(`nextEventMatchingMask`). -/
inductive WaitEv where
  | exec (id : Nat)
  | fetchNative
deriving DecidableEq

/-- `MCMacPlatformCore::BreakWait` (mac-core.mm:630): under the lock,
set `m_wait_broken` (posting the synthetic wake-up event to the host
queue, which is external, only when the flag was clear). -/
def BreakWait (s : WaitState) : WaitState :=
  { s with wait_broken := true }

/-- `MCMacPlatformCore::ScheduleCallback` (mac-core.mm:821): append the
callback under the lock, then `BreakWait`. -/
def ScheduleCallback (s : WaitState) (id : Nat) : WaitState :=
  BreakWait { s with callbacks := s.callbacks ++ [id] }

/-- `MCMacPlatformCore::EnableEventChecking` (mac-core.mm:675). -/
def EnableEventChecking (s : WaitState) : WaitState :=
  { s with event_checking := s.event_checking + 1 }

/-- `MCMacPlatformCore::DisableEventChecking` (mac-core.mm:680). -/
def DisableEventChecking (s : WaitState) : WaitState :=
  { s with event_checking := s.event_checking - 1 }

/-- `MCMacPlatformCore::IsEventCheckingEnabled` (mac-core.mm:685). -/
def IsEventCheckingEnabled (s : WaitState) : Bool :=
  s.event_checking = 0

/-- `MCMacPlatformCore::WaitForEvent` (mac-core.mm:690): if event
checking is disabled return `false` at once; otherwise clear
`m_wait_broken`, swap out the callback queue under the lock, run every
callback in order, then request the next native event from the host.
`p_host_event` abstracts whether the host returned an event before the
timeout; the observer installation, modal-session pump and event
redispatch act only on host objects and are not part of the state.
Returns the new state, the emitted action trace, and the result of
the call. -/
def WaitForEvent (s : WaitState) (p_host_event : Bool) :
    WaitState × List WaitEv × Bool :=
  if ¬ IsEventCheckingEnabled s then (s, [], false)
  else
    ({ s with wait_broken := false, callbacks := [] },
     s.callbacks.map WaitEv.exec ++ [WaitEv.fetchNative],
     p_host_event)

/-- Interleavable wait-coordinator operations. -/
inductive WaitOp where
  | schedule (id : Nat)
  | wait (hostEvent : Bool)
  | enable
  | disable
deriving DecidableEq

/-- One wait-coordinator operation. -/
def waitStep (s : WaitState) : WaitOp → WaitState × List WaitEv
  | WaitOp.schedule id => (ScheduleCallback s id, [])
  | WaitOp.wait he => ((WaitForEvent s he).1, (WaitForEvent s he).2.1)
  | WaitOp.enable => (EnableEventChecking s, [])
  | WaitOp.disable => (DisableEventChecking s, [])

/-- Run a sequence of wait-coordinator operations, concatenating the
emitted action traces. -/
def waitRun (s : WaitState) : List WaitOp → WaitState × List WaitEv
  | [] => (s, [])
  | op :: rest =>
      let r := waitStep s op
      let rr := waitRun r.1 rest
      (rr.1, r.2 ++ rr.2)

/-- The callback ids scheduled by an operation sequence, in submission
order. -/
def schedIds (ops : List WaitOp) : List Nat :=
  ops.filterMap fun op =>
    match op with
    | WaitOp.schedule id => some id
    | _ => none

/-- The callback ids executed in an action trace, in execution order. -/
def execIds (tr : List WaitEv) : List Nat :=
  tr.filterMap fun ev =>
    match ev with
    | WaitEv.exec id => some id
    | WaitEv.fetchNative => none

/-- The freshly constructed wait state. -/
def initWaitState : WaitState where
  event_checking := 0
  wait_broken := false
  callbacks := []

/-! ### Modal session stack -/

/-- `MCModalSession` entries: `{window, session, is_done}`.  The stack
is a list with the most recent session at the tail. -/
structure ModalEntry where
  window : Nat
  session : Nat
  is_done : Bool
deriving DecidableEq

/-- Teardown actions of `EndModalSession`: end the native session, hide
the window (`orderOut`), release the window handle. -/
inductive ModalEv where
  | endSession (session : Nat)
  | orderOut (window : Nat)
  | releaseWindow (window : Nat)
deriving DecidableEq

/-- Mark the first entry for `w` complete
(`m_modal_sessions[t_index].is_done = true` at the found index). -/
def markFirst (w : Nat) : List ModalEntry → List ModalEntry
  | [] => []
  | e :: rest =>
      if e.window = w then { e with is_done := true } :: rest
      else e :: markFirst w rest

/-- The teardown actions for one entry, in source order. -/
def teardownEvs (e : ModalEntry) : List ModalEv :=
  [ModalEv.endSession e.session, ModalEv.orderOut e.window,
   ModalEv.releaseWindow e.window]

/-- The teardown loop of `EndModalSession` (mac-core.mm:809), expressed
on the reversed stack (tail of the stack first): tear down entries while
they are complete, stopping at the first incomplete one.  Returns the
remaining (still reversed) stack and the actions in teardown order. -/
def teardownRev : List ModalEntry → List ModalEntry × List ModalEv
  | [] => ([], [])
  | e :: rest =>
      if e.is_done then
        let r := teardownRev rest
        (r.1, teardownEvs e ++ r.2)
      else (e :: rest, [])

/-- `MCMacPlatformCore::EndModalSession` (mac-core.mm:797): locate the
entry for the window (no-op if absent), mark it complete, then tear down
the contiguous completed run at the tail of the stack, tail-to-head. -/
def EndModalSession (w : Nat) (stack : List ModalEntry) :
    List ModalEntry × List ModalEv :=
  match stack.findIdx? (fun e => e.window = w) with
  | none => (stack, [])
  | some _ =>
      let marked := markFirst w stack
      let r := teardownRev marked.reverse
      (r.1.reverse, r.2)

/-! ### Coordinate mapper -/

/-- Truncation of a rational toward zero, as a C floating-point to
signed-integer conversion behaves on in-range values (`CGFloat` is
modelled exactly, by `ℚ`; the conversion is defined only when the value
fits `int16_t`, hence the range hypotheses on the round-trip
theorem). -/
def truncToInt (q : ℚ) : Int :=
  if 0 ≤ q then ⌊q⌋ else ⌈q⌉

/-- `MCMacPlatformCore::MapScreenMCPointToNSPoint` (mac-core.mm:1881):
`NSMakePoint(p.x, desktopHeight - p.y)`, for a fixed desktop height
`h`. -/
def MapScreenMCPointToNSPoint (h : ℚ) (p : MCPoint) : ℚ × ℚ :=
  ((p.x : ℚ), h - (p.y : ℚ))

/-- `MCMacPlatformCore::MapScreenNSPointToMCPoint` (mac-core.mm:1886):
`x = int16_t(p.x)`, `y = int16_t(desktopHeight - p.y)`. -/
def MapScreenNSPointToMCPoint (h : ℚ) (q : ℚ × ℚ) : MCPoint :=
  ⟨truncToInt q.1, truncToInt (h - q.2)⟩

/-! ### Shared test environment -/

/-- A concrete host environment for witnesses: one window (id 1)
covering the whole screen, identity coordinate maps, event time 100,
double-click interval 500, double-click radius 4, drag threshold 4. -/
def envW1 : MouseEnv where
  windowAt := fun _ => some 1
  mapScreenToWindow := fun _ p => p
  mapWindowToScreen := fun _ p => p
  eventTime := 100
  doubletime := 500
  doubledelta := 4
  dragdelta := 4
  mouseLocation := ⟨0, 0⟩

/-! ### C9: coordinate round-trip -/

/-- Truncation toward zero is the identity on integers. -/
theorem truncToInt_intCast (n : Int) : truncToInt (n : ℚ) = n := by
  unfold truncToInt
  split <;> simp

/-- C9: for every point `p` (with coordinates in `int16_t` range, the
type of `MCPoint` fields) and every fixed desktop height `h`, mapping
`p` to native coordinates (`MapScreenMCPointToNSPoint`) and back
(`MapScreenNSPointToMCPoint`) yields `p` exactly: `y` maps as
`y_native = h - y_logical` with exact inverse, and `x` is unchanged. -/
theorem screen_point_roundtrip (h : ℚ) (p : MCPoint)
    (hx1 : -32768 ≤ p.x) (hx2 : p.x ≤ 32767)
    (hy1 : -32768 ≤ p.y) (hy2 : p.y ≤ 32767) :
    MapScreenNSPointToMCPoint h (MapScreenMCPointToNSPoint h p) = p := by
  obtain ⟨x, y⟩ := p
  simp [MapScreenNSPointToMCPoint, MapScreenMCPointToNSPoint,
    sub_sub_cancel, truncToInt_intCast]

/-- Witness for C9 at `p = (100, 200)`, `h = 1080`. -/
theorem screen_point_roundtrip_witness :
    ((-32768 : Int) ≤ 100 ∧ (100 : Int) ≤ 32767 ∧
     (-32768 : Int) ≤ 200 ∧ (200 : Int) ≤ 32767) ∧
    MapScreenNSPointToMCPoint 1080 (MapScreenMCPointToNSPoint 1080 ⟨100, 200⟩) =
      ⟨100, 200⟩ :=
  ⟨⟨by decide, by decide, by decide, by decide⟩,
   screen_point_roundtrip 1080 ⟨100, 200⟩ (by decide) (by decide) (by decide)
     (by decide)⟩

/-! ### C10: `WaitForEvent` with event checking disabled -/

/-- C10: whenever the event-checking counter is non-zero, `WaitForEvent`
returns `false` immediately: the state (including the `m_wait_broken`
flag and the callback queue) is unchanged and no callback is executed
and no native event is requested (empty action trace). -/
theorem wait_noop_when_checking_disabled (n : Int) (brok : Bool)
    (cbs : List Nat) (he : Bool) (h : n ≠ 0) :
    WaitForEvent ⟨n, brok, cbs⟩ he = (⟨n, brok, cbs⟩, [], false) := by
  simp [WaitForEvent, IsEventCheckingEnabled, h]

/-- Witness for C10 at counter 1, a broken-wait flag set, one queued
callback. -/
theorem wait_noop_when_checking_disabled_witness :
    (1 : Int) ≠ 0 ∧
    WaitForEvent ⟨1, true, [5]⟩ true = (⟨1, true, [5]⟩, [], false) :=
  ⟨by decide, wait_noop_when_checking_disabled 1 true [5] true (by decide)⟩

/-! ### C3: callback FIFO discipline -/

/-- `execIds` distributes over trace concatenation. -/
theorem execIds_append (a b : List WaitEv) :
    execIds (a ++ b) = execIds a ++ execIds b := by
  simp [execIds]

/-- The executed ids of a drained queue are the queue itself. -/
theorem execIds_map_exec (l : List Nat) : execIds (l.map WaitEv.exec) = l := by
  induction l with
  | nil => rfl
  | cons a t ih =>
    simp only [List.map_cons, execIds, List.filterMap_cons] at ih ⊢
    simp [ih]

/-- A native-event fetch executes no callback. -/
theorem execIds_fetch : execIds [WaitEv.fetchNative] = [] := rfl

/-- Run invariant: the ids executed by a run, followed by the ids still
queued at its end, are exactly the initially queued ids followed by the
ids scheduled during the run, in order. -/
theorem waitRun_fifo (s : WaitState) (ops : List WaitOp) :
    execIds (waitRun s ops).2 ++ (waitRun s ops).1.callbacks =
      s.callbacks ++ schedIds ops := by
  induction ops generalizing s with
  | nil => simp [waitRun, execIds, schedIds]
  | cons op rest ih =>
    cases op with
    | schedule id =>
      simp only [waitRun, waitStep, List.nil_append]
      rw [ih]
      simp [ScheduleCallback, BreakWait, schedIds, List.filterMap_cons,
        List.append_assoc]
    | wait he =>
      by_cases h : s.event_checking = 0
      · have hE : IsEventCheckingEnabled s = true := by
          simp [IsEventCheckingEnabled, h]
        simp only [waitRun, waitStep, WaitForEvent, hE, not_true,
          Bool.true_eq_false, if_false, ite_false]
        rw [execIds_append, execIds_append, List.append_assoc, ih]
        simp [execIds_map_exec, execIds_fetch, schedIds, List.filterMap_cons]
      · have hE : IsEventCheckingEnabled s = false := by
          simp [IsEventCheckingEnabled, h]
        simp only [waitRun, waitStep, WaitForEvent, hE, Bool.false_eq_true,
          not_false_iff, if_true, ite_true, List.nil_append]
        rw [ih]
        simp [schedIds, List.filterMap_cons]
    | enable =>
      simp only [waitRun, waitStep, List.nil_append]
      rw [ih]
      simp [EnableEventChecking, schedIds, List.filterMap_cons]
    | disable =>
      simp only [waitRun, waitStep, List.nil_append]
      rw [ih]
      simp [DisableEventChecking, schedIds, List.filterMap_cons]

/-- C3: for every interleaving of `ScheduleCallback`, `WaitForEvent`
(and enable/disable) calls starting from the initial state, the executed
callback ids followed by the still-pending ids equal the scheduled ids
in submission order — so callbacks run in FIFO order, none is executed
twice or dropped, and each drained callback is executed exactly once;
moreover every `WaitForEvent` call with event checking enabled executes
every callback pending at its start strictly before it requests the next
native event from the host. -/
theorem callbacks_fifo_drained_before_fetch :
    (∀ ops : List WaitOp,
      execIds (waitRun initWaitState ops).2 ++
          (waitRun initWaitState ops).1.callbacks =
        schedIds ops) ∧
    (∀ (cbs : List Nat) (brok he : Bool),
      (WaitForEvent ⟨0, brok, cbs⟩ he).2.1 =
        cbs.map WaitEv.exec ++ [WaitEv.fetchNative]) := by
  constructor
  · intro ops
    have h := waitRun_fifo initWaitState ops
    simpa [initWaitState] using h
  · intro cbs brok he
    simp [WaitForEvent, IsEventCheckingEnabled]

/-! ### C2: modal session teardown -/

/-- The teardown loop tears down exactly the leading completed run of
the reversed stack (the contiguous completed run at the stack tail),
in that order, and keeps the rest. -/
theorem teardownRev_eq (l : List ModalEntry) :
    teardownRev l =
      (l.dropWhile (fun e => e.is_done),
       ((l.takeWhile (fun e => e.is_done)).map teardownEvs).flatten) := by
  induction l with
  | nil => rfl
  | cons e rest ih =>
    by_cases h : e.is_done
    · simp [teardownRev, h, ih, List.dropWhile_cons, List.takeWhile_cons]
    · simp [teardownRev, h, List.dropWhile_cons, List.takeWhile_cons]

/-- If no entry is for `w`, the search finds nothing. -/
theorem findIdx_none_of_absent (w : Nat) (stack : List ModalEntry)
    (h : ∀ e ∈ stack, e.window ≠ w) :
    stack.findIdx? (fun e => e.window = w) = none := by
  rw [List.findIdx?_eq_none_iff]
  intro x hx
  simpa using h x hx

/-- If some entry is for `w`, the search finds an index. -/
theorem findIdx_some_of_present (w : Nat) (stack : List ModalEntry)
    (h : ∃ e ∈ stack, e.window = w) :
    ∃ i, stack.findIdx? (fun e => e.window = w) = some i := by
  rw [← Option.isSome_iff_exists, List.findIdx?_isSome, List.any_eq_true]
  obtain ⟨e, he, hew⟩ := h
  exact ⟨e, he, by simpa using hew⟩

/-- C2: `EndModalSession w` with no stack entry for `w` is a no-op;
otherwise it marks the (first) entry for `w` complete and then tears
down exactly the contiguous run of completed entries at the tail of the
stack, tail-to-head (ending each native session, hiding each window,
releasing each handle), stopping at the first incomplete entry — the
remaining stack is the part strictly below that run, so no entry is
torn down while an incomplete entry lies above it toward the tail. -/
theorem end_modal_session_contiguous_tail (w : Nat) (stack : List ModalEntry) :
    ((∀ e ∈ stack, e.window ≠ w) → EndModalSession w stack = (stack, [])) ∧
    ((∃ e ∈ stack, e.window = w) →
      EndModalSession w stack =
        (((markFirst w stack).reverse.dropWhile (fun e => e.is_done)).reverse,
         (((markFirst w stack).reverse.takeWhile (fun e => e.is_done)).map
            teardownEvs).flatten)) := by
  constructor
  · intro h
    simp [EndModalSession, findIdx_none_of_absent w stack h]
  · intro h
    obtain ⟨i, hi⟩ := findIdx_some_of_present w stack h
    simp [EndModalSession, hi, teardownRev_eq]

/-- Witness for C2: a three-entry stack `[A done, B pending, C done]`;
ending `B` marks it complete and tears down `C`, `B`, `A` in
tail-to-head order; ending an absent window is a no-op. -/
theorem end_modal_session_contiguous_tail_witness :
    ((∀ e ∈ [ModalEntry.mk 1 10 true, ModalEntry.mk 2 20 false,
        ModalEntry.mk 3 30 true], e.window ≠ 9) ∧
      EndModalSession 9 [ModalEntry.mk 1 10 true, ModalEntry.mk 2 20 false,
        ModalEntry.mk 3 30 true] =
        ([ModalEntry.mk 1 10 true, ModalEntry.mk 2 20 false,
          ModalEntry.mk 3 30 true], [])) ∧
    ((∃ e ∈ [ModalEntry.mk 1 10 true, ModalEntry.mk 2 20 false,
        ModalEntry.mk 3 30 true], e.window = 2) ∧
      EndModalSession 2 [ModalEntry.mk 1 10 true, ModalEntry.mk 2 20 false,
        ModalEntry.mk 3 30 true] =
        ([], [ModalEv.endSession 30, ModalEv.orderOut 3, ModalEv.releaseWindow 3,
              ModalEv.endSession 20, ModalEv.orderOut 2, ModalEv.releaseWindow 2,
              ModalEv.endSession 10, ModalEv.orderOut 1,
              ModalEv.releaseWindow 1])) := by
  constructor
  · refine ⟨by decide, ?_⟩
    have h := (end_modal_session_contiguous_tail 9 [ModalEntry.mk 1 10 true,
      ModalEntry.mk 2 20 false, ModalEntry.mk 3 30 true]).1 (by decide)
    exact h
  · refine ⟨by decide, ?_⟩
    have h := (end_modal_session_contiguous_tail 2 [ModalEntry.mk 1 10 true,
      ModalEntry.mk 2 20 false, ModalEntry.mk 3 30 true]).2 (by decide)
    rw [h]
    decide

/-! ### C5: enter/leave ordering on window change -/

/-- Setting a bit always yields a non-zero bitmask (so a press always
leaves `m_mouse_buttons` non-zero). -/
theorem lor_shift_ne_zero (m b : Nat) : m ||| (1 <<< b) ≠ 0 := by
  intro h0
  have h1 : (m ||| (1 <<< b)).testBit b = true := by
    rw [Nat.testBit_lor]
    simp [Nat.shiftLeft_eq, Nat.testBit_two_pow_self]
  rw [h0] at h1
  simp [Nat.zero_testBit] at h1

/-- The motion tail never changes the mouse window. -/
theorem tail_mouse_window (env : MouseEnv) (s : PointerState) (p : MCPoint)
    (c : Bool) :
    (HandleMouseMoveTail env s p c).1.mouse_window = s.mouse_window := by
  unfold HandleMouseMoveTail
  rcases hw : s.mouse_window with _ | w
  · simp [hw]
  · simp only [hw]
    split
    · split <;> simp
    · simp

/-- C5: in a motion step whose resolved window differs from the current
mouse window, the emitted notifications are exactly: "leave" for the old
window (if any), then "enter" for the new one (if any), then (if the new
window is nothing and the cursor is not locked) a cursor reset, then the
release of the old window handle and the retain of the new one, followed
by the ordinary motion events; the new window is stored.  In particular
a leave always strictly precedes the matching enter. -/
theorem mouse_move_leave_before_enter (env : MouseEnv) (s : PointerState)
    (p : MCPoint)
    (h : (if s.mouse_grabbed then s.mouse_window else env.windowAt p) ≠
          s.mouse_window) :
    (HandleMouseMove env s p =
      ((HandleMouseMoveTail env
          { s with mouse_window :=
              if s.mouse_grabbed then s.mouse_window else env.windowAt p }
          p true).1,
       (match s.mouse_window with
        | some w => [MouseEv.mouseLeave w]
        | none => []) ++
       (match (if s.mouse_grabbed then s.mouse_window else env.windowAt p) with
        | some w => [MouseEv.mouseEnter w]
        | none => []) ++
       (if (if s.mouse_grabbed then s.mouse_window else env.windowAt p) = none ∧
            s.mouse_cursor_locked = false then [MouseEv.resetCursor] else []) ++
       (match s.mouse_window with
        | some w => [MouseEv.releaseWin w]
        | none => []) ++
       (match (if s.mouse_grabbed then s.mouse_window else env.windowAt p) with
        | some w => [MouseEv.retainWin w]
        | none => []) ++
       (HandleMouseMoveTail env
          { s with mouse_window :=
              if s.mouse_grabbed then s.mouse_window else env.windowAt p }
          p true).2)) ∧
    (HandleMouseMove env s p).1.mouse_window =
      (if s.mouse_grabbed then s.mouse_window else env.windowAt p) := by
  constructor
  · simp only [HandleMouseMove]
    rw [if_neg h]
  · simp only [HandleMouseMove]
    rw [if_neg h]
    simp [tail_mouse_window]

/-- Witness for C5: from the initial state (no mouse window), a motion
over window 1 emits enter/retain and stores the window. -/
theorem mouse_move_leave_before_enter_witness :
    ((if initPointerState.mouse_grabbed then initPointerState.mouse_window
      else envW1.windowAt ⟨3, 4⟩) ≠ initPointerState.mouse_window) ∧
    ((HandleMouseMove envW1 initPointerState ⟨3, 4⟩).1.mouse_window =
      (if initPointerState.mouse_grabbed then initPointerState.mouse_window
       else envW1.windowAt ⟨3, 4⟩)) :=
  ⟨by decide,
   (mouse_move_leave_before_enter envW1 initPointerState ⟨3, 4⟩ (by decide)).2⟩

/-! ### C6: click-count increment condition -/

/-- C6: on a press transition (button bit currently clear, some mouse
window), the click count becomes the old count plus one exactly when the
unsigned 32-bit time delta from the last click is below `MCdoubletime`,
the screen displacement from the last click is below `MCdoubledelta` on
both axes, and the (control-click-remapped) button equals the last-click
button; otherwise it resets to zero. -/
theorem click_count_increment_iff (env : MouseEnv) (s : PointerState) (b w : Nat)
    (hb : s.mouse_buttons.testBit b = false) (hw : s.mouse_window = some w) :
    (HandleMousePress env s b true).1.mouse_click_count =
      (if sub32 env.eventTime s.mouse_last_click_time < env.doubletime ∧
          (s.mouse_last_click_screen_position.x -
              s.mouse_screen_position.x).natAbs < env.doubledelta ∧
          (s.mouse_last_click_screen_position.y -
              s.mouse_screen_position.y).natAbs < env.doubledelta ∧
          s.mouse_last_click_button =
            (if b = 0 ∧ s.mouse_modifiers &&& kMCPlatformModifierCommand ≠ 0
             then 2 else b)
       then s.mouse_click_count + 1 else 0) := by
  have hz := lor_shift_ne_zero s.mouse_buttons b
  by_cases hb0 : b = 0 <;>
  by_cases hm : s.mouse_modifiers &&& kMCPlatformModifierCommand = 0 <;>
  by_cases hi : sub32 env.eventTime s.mouse_last_click_time < env.doubletime ∧
      (s.mouse_last_click_screen_position.x -
          s.mouse_screen_position.x).natAbs < env.doubledelta ∧
      (s.mouse_last_click_screen_position.y -
          s.mouse_screen_position.y).natAbs < env.doubledelta ∧
      s.mouse_last_click_button =
        (if b = 0 ∧ s.mouse_modifiers &&& kMCPlatformModifierCommand ≠ 0
         then 2 else b) <;>
  simp_all [HandleMousePress]

/-- Witness for C6: pressing button 0 at the initial state with the
test environment increments the count (time delta 100 < 500, zero
displacement, same button 0). -/
theorem click_count_increment_iff_witness :
    (initPointerState.mouse_buttons.testBit 0 = false ∧
      { initPointerState with mouse_window := some 1 }.mouse_window = some 1) ∧
    (HandleMousePress envW1 { initPointerState with mouse_window := some 1 } 0
        true).1.mouse_click_count =
      (if sub32 envW1.eventTime
            { initPointerState with
                mouse_window := some 1 }.mouse_last_click_time <
              envW1.doubletime ∧
          ({ initPointerState with
              mouse_window := some 1 }.mouse_last_click_screen_position.x -
            { initPointerState with
                mouse_window := some 1 }.mouse_screen_position.x).natAbs <
              envW1.doubledelta ∧
          ({ initPointerState with
              mouse_window := some 1 }.mouse_last_click_screen_position.y -
            { initPointerState with
                mouse_window := some 1 }.mouse_screen_position.y).natAbs <
              envW1.doubledelta ∧
          { initPointerState with mouse_window := some 1 }.mouse_last_click_button =
            (if (0 : Nat) = 0 ∧
                { initPointerState with mouse_window := some 1 }.mouse_modifiers &&&
                  kMCPlatformModifierCommand ≠ 0
             then 2 else 0)
       then { initPointerState with
                mouse_window := some 1 }.mouse_click_count + 1
       else 0) :=
  ⟨⟨by decide, by decide⟩,
   click_count_increment_iff envW1 { initPointerState with mouse_window := some 1 }
     0 1 (by decide) (by decide)⟩

/-! ### C7: release dispatch by window ownership -/

/-- C7: on a button release (bit currently set, some mouse window), the
window under the screen point is re-resolved; if it equals the tracked
mouse window or the grab was explicit, a `mouseUp` is emitted and, when
the (remapped) released button matches the last-click button, the
double-click timestamp is refreshed to the current event time; otherwise
a `mouseRelease` (not synthesized) is emitted and the click counter and
click timestamp are reset to zero. -/
theorem release_ownership_dispatch (env : MouseEnv) (s : PointerState) (b w : Nat)
    (hb : s.mouse_buttons.testBit b = true) (hw : s.mouse_window = some w) :
    ((env.windowAt (env.mapWindowToScreen w s.mouse_position) = some w ∨
        s.mouse_grabbed_explicit = true) →
      (HandleMousePress env s b false).2 =
        [MouseEv.mouseUp w (if s.mouse_was_control_click ∧ b = 0 then 2 else b)
          s.mouse_click_count] ∧
      (HandleMousePress env s b false).1.mouse_click_count =
        s.mouse_click_count ∧
      (HandleMousePress env s b false).1.mouse_last_click_time =
        (if (if s.mouse_was_control_click ∧ b = 0 then 2 else b) =
            s.mouse_last_click_button then env.eventTime
         else s.mouse_last_click_time)) ∧
    (¬ (env.windowAt (env.mapWindowToScreen w s.mouse_position) = some w ∨
        s.mouse_grabbed_explicit = true) →
      (HandleMousePress env s b false).2 =
        [MouseEv.mouseRelease w
          (if s.mouse_was_control_click ∧ b = 0 then 2 else b) false] ∧
      (HandleMousePress env s b false).1.mouse_click_count = 0 ∧
      (HandleMousePress env s b false).1.mouse_last_click_time = 0) := by
  by_cases hz : clearBit s.mouse_buttons b = 0 <;>
  by_cases ho : env.windowAt (env.mapWindowToScreen w s.mouse_position) = some w ∨
      s.mouse_grabbed_explicit = true <;>
  simp_all [HandleMousePress, apply_ite PointerState.mouse_click_count,
    apply_ite PointerState.mouse_last_click_time]

/-- A state with button 0 down inside window 1, for the C7 witness. -/
def c7s : PointerState :=
  { initPointerState with
      mouse_buttons := 1
      mouse_window := some 1
      mouse_grabbed := true }

/-- Witness for C7: releasing button 0 of `c7s` over the same window
emits a `mouseUp` and refreshes the double-click timestamp. -/
theorem release_ownership_dispatch_witness :
    (c7s.mouse_buttons.testBit 0 = true ∧ c7s.mouse_window = some 1) ∧
    (((envW1.windowAt (envW1.mapWindowToScreen 1 c7s.mouse_position) = some 1 ∨
        c7s.mouse_grabbed_explicit = true) →
      (HandleMousePress envW1 c7s 0 false).2 =
        [MouseEv.mouseUp 1 (if c7s.mouse_was_control_click ∧ (0 : Nat) = 0
            then 2 else 0) c7s.mouse_click_count] ∧
      (HandleMousePress envW1 c7s 0 false).1.mouse_click_count =
        c7s.mouse_click_count ∧
      (HandleMousePress envW1 c7s 0 false).1.mouse_last_click_time =
        (if (if c7s.mouse_was_control_click ∧ (0 : Nat) = 0 then 2 else 0) =
            c7s.mouse_last_click_button then envW1.eventTime
         else c7s.mouse_last_click_time)) ∧
    (¬ (envW1.windowAt (envW1.mapWindowToScreen 1 c7s.mouse_position) = some 1 ∨
        c7s.mouse_grabbed_explicit = true) →
      (HandleMousePress envW1 c7s 0 false).2 =
        [MouseEv.mouseRelease 1
          (if c7s.mouse_was_control_click ∧ (0 : Nat) = 0 then 2 else 0) false] ∧
      (HandleMousePress envW1 c7s 0 false).1.mouse_click_count = 0 ∧
      (HandleMousePress envW1 c7s 0 false).1.mouse_last_click_time = 0)) :=
  ⟨⟨by decide, by decide⟩,
   release_ownership_dispatch envW1 c7s 0 1 (by decide) (by decide)⟩

/-! ### C1: the grab invariant -/

/-- The claimed invariant: the grabbed flag holds exactly when some
button is down or an explicit grab is active. -/
def grabInv (s : PointerState) : Prop :=
  s.mouse_grabbed = true ↔ (s.mouse_buttons ≠ 0 ∨ s.mouse_grabbed_explicit = true)

instance (s : PointerState) : Decidable (grabInv s) := by
  unfold grabInv
  infer_instance

/-- The operations of the claimed sequences, minus `HandleMouseSync`:
button press/release, explicit grab, ungrab. -/
def isPressGrabOp : MouseOp → Bool
  | MouseOp.press _ => true
  | MouseOp.release _ => true
  | MouseOp.grab _ => true
  | MouseOp.ungrab => true
  | _ => false

set_option maxHeartbeats 1000000 in
/-- `HandleMousePress` re-establishes the grab invariant. -/
theorem grabInv_press (env : MouseEnv) (s : PointerState) (b : Nat) (n : Bool)
    (h : grabInv s) : grabInv (HandleMousePress env s b n).1 := by
  have hz2 := lor_shift_ne_zero s.mouse_buttons b
  cases n
  · rcases hw : s.mouse_window with _ | w <;>
    by_cases h1 : s.mouse_buttons.testBit b = false <;>
    by_cases hb0 : b = 0 <;>
    by_cases hz : clearBit s.mouse_buttons b = 0 <;>
    simp_all [HandleMousePress, grabInv,
      apply_ite (Prod.fst : PointerState × List MouseEv → PointerState),
      apply_ite PointerState.mouse_grabbed,
      apply_ite PointerState.mouse_buttons,
      apply_ite PointerState.mouse_grabbed_explicit] <;>
    split_ifs <;> simp_all
  · rcases hw : s.mouse_window with _ | w <;>
    by_cases h1 : s.mouse_buttons.testBit b = false <;>
    by_cases hb0 : b = 0 <;>
    by_cases hm : s.mouse_modifiers &&& kMCPlatformModifierCommand = 0 <;>
    simp_all [HandleMousePress, grabInv,
      apply_ite (Prod.fst : PointerState × List MouseEv → PointerState),
      apply_ite PointerState.mouse_grabbed,
      apply_ite PointerState.mouse_buttons,
      apply_ite PointerState.mouse_grabbed_explicit]

/-- `GrabPointer` re-establishes or preserves the grab invariant. -/
theorem grabInv_grab (s : PointerState) (w : Option Nat) (h : grabInv s) :
    grabInv (GrabPointer s w) := by
  unfold GrabPointer grabInv at *
  split_ifs <;> simp_all

/-- `UngrabPointer` re-establishes or preserves the grab invariant. -/
theorem grabInv_ungrab (s : PointerState) (h : grabInv s) :
    grabInv (UngrabPointer s) := by
  unfold UngrabPointer grabInv at *
  split_ifs <;> simp_all

/-- C1 (amended: `HandleMouseSync` excluded): for every sequence of
press/release/grab/ungrab operations from the initial state, after each
step the grabbed flag equals (button bitmask non-zero OR explicit-grab
flag set). -/
theorem grab_invariant_press_grab_ungrab (steps : List (MouseEnv × MouseOp))
    (hops : ∀ st ∈ steps, isPressGrabOp st.2 = true) :
    ∀ x ∈ runTrace initPointerState steps, grabInv x.1 := by
  have aux : ∀ (l : List (MouseEnv × MouseOp)) (s : PointerState), grabInv s →
      (∀ st ∈ l, isPressGrabOp st.2 = true) →
      ∀ x ∈ runTrace s l, grabInv x.1 := by
    intro l
    induction l with
    | nil =>
      intro s _ _ x hx
      simp [runTrace] at hx
    | cons st rest ih =>
      intro s hs hl x hx
      have hst : isPressGrabOp st.2 = true := hl st (by simp)
      have hnext : grabInv (mouseStep st.1 s st.2).1 := by
        rcases hop : st.2 with b | b | p | w | _ | _
        · exact grabInv_press st.1 s b true hs
        · exact grabInv_press st.1 s b false hs
        · rw [hop] at hst; simp [isPressGrabOp] at hst
        · exact grabInv_grab s w hs
        · exact grabInv_ungrab s hs
        · rw [hop] at hst; simp [isPressGrabOp] at hst
      simp only [runTrace] at hx
      rcases List.mem_cons.mp hx with rfl | hx2
      · exact hnext
      · exact ih (mouseStep st.1 s st.2).1 hnext
          (fun y hy => hl y (List.mem_cons_of_mem st hy)) x hx2
  exact aux steps initPointerState (by decide) hops

/-- Witness for C1 at a concrete grab/ungrab/press/release sequence. -/
theorem grab_invariant_press_grab_ungrab_witness :
    (∀ st ∈ [((envW1, MouseOp.grab none) : MouseEnv × MouseOp),
        (envW1, MouseOp.ungrab), (envW1, MouseOp.press 0),
        (envW1, MouseOp.release 0)], isPressGrabOp st.2 = true) ∧
    ∀ x ∈ runTrace initPointerState [((envW1, MouseOp.grab none) :
        MouseEnv × MouseOp), (envW1, MouseOp.ungrab), (envW1, MouseOp.press 0),
        (envW1, MouseOp.release 0)], grabInv x.1 :=
  ⟨by decide,
   grab_invariant_press_grab_ungrab [(envW1, MouseOp.grab none),
     (envW1, MouseOp.ungrab), (envW1, MouseOp.press 0),
     (envW1, MouseOp.release 0)] (by decide)⟩

/-- The sequence refuting C1 as stated (with `sync` among the
operations): the first sync resolves window 1 under the pointer, the
grab makes the explicit grab active, and the second sync clears the
grabbed flag while leaving the explicit-grab flag set. -/
def c1CtrexSteps : List (MouseEnv × MouseOp) :=
  [(envW1, MouseOp.sync), (envW1, MouseOp.grab (some 1)),
   (envW1, MouseOp.sync)]

/-- Counterexample to C1 as stated: after the last step of
`c1CtrexSteps` (a `HandleMouseSync`), the grabbed flag is false although
the explicit-grab flag is still set, so `grabbed` does not equal
(buttons non-zero OR explicit grab). -/
theorem grab_invariant_fails_after_sync :
    ¬ (∀ x ∈ runTrace initPointerState c1CtrexSteps, grabInv x.1) := by
  decide

/-! ### C4: `HandleMouseSync` -/

/-- Clearing bit `i` leaves every bit `j < 32`, `j` distinct from `i`,
unchanged. -/
theorem testBit_clearBit_ne (n i j : Nat) (hij : ¬ i = j) (hj : j < 32) :
    (clearBit n i).testBit j = n.testBit j := by
  unfold clearBit
  rw [Nat.testBit_land, Nat.testBit_xor,
    (by norm_num : (0xffffffff : ℕ) = 2 ^ 32 - 1),
    Nat.testBit_two_pow_sub_one, Nat.shiftLeft_eq, one_mul,
    Nat.testBit_two_pow]
  simp [hj, hij]

theorem testBit_clearBit_self (n i : Nat) (hi : i < 32) :
    (clearBit n i).testBit i = false := by
  unfold clearBit
  rw [Nat.testBit_land, Nat.testBit_xor,
    (by norm_num : (0xffffffff : ℕ) = 2 ^ 32 - 1),
    Nat.testBit_two_pow_sub_one, Nat.shiftLeft_eq, one_mul,
    Nat.testBit_two_pow]
  simp [hi]

theorem clearBit_lt_two_pow (n i : Nat) (hn : n < 2 ^ 32) :
    clearBit n i < 2 ^ 32 :=
  lt_of_le_of_lt Nat.and_le_left hn

theorem clearBit_noop (n i : Nat) (h : n.testBit i = false) (hn : n < 2 ^ 32) :
    clearBit n i = n := by
  apply Nat.eq_of_testBit_eq
  intro j
  by_cases hj : j < 32
  · by_cases hij : i = j
    · subst hij
      rw [testBit_clearBit_self n i hj, h]
    · exact testBit_clearBit_ne n i j hij hj
  · have h32 : (2 : ℕ) ^ 32 ≤ 2 ^ j :=
      Nat.pow_le_pow_right (by norm_num) (le_of_not_lt hj)
    rw [Nat.testBit_eq_false_of_lt
        (lt_of_lt_of_le (clearBit_lt_two_pow n i hn) h32),
      Nat.testBit_eq_false_of_lt (lt_of_lt_of_le hn h32)]


theorem tail_no_release (env : MouseEnv) (s : PointerState) (p : MCPoint)
    (c : Bool) (w b : Nat) (syn : Bool) :
    MouseEv.mouseRelease w b syn ∉ (HandleMouseMoveTail env s p c).2 := by
  intro hm
  unfold HandleMouseMoveTail at hm
  rcases hw2 : s.mouse_window with _ | w0
  · simp [hw2] at hm
  · simp only [hw2] at hm
    split_ifs at hm <;> simp_all

theorem move_no_release (env : MouseEnv) (s : PointerState) (p : MCPoint)
    (w b : Nat) (syn : Bool) :
    MouseEv.mouseRelease w b syn ∉ (HandleMouseMove env s p).2 := by
  intro hm
  simp only [HandleMouseMove] at hm
  revert hm
  generalize (if s.mouse_grabbed = true then s.mouse_window
    else env.windowAt p) = nw
  intro hm
  split at hm
  · exact tail_no_release env s p false w b syn hm
  · simp only [List.mem_append] at hm
    rcases hm with ((((hm | hm) | hm) | hm) | hm) | hm
    · split at hm <;> simp_all
    · split at hm <;> simp_all
    · split at hm <;> simp_all
    · split at hm <;> simp_all
    · split at hm <;> simp_all
    · exact tail_no_release env _ p true w b syn hm

def lowCleared (n : Nat) : Nat := clearBit (clearBit (clearBit n 0) 1) 2

theorem lowCleared_lt_two_pow (n : Nat) (hn : n < 2 ^ 32) :
    lowCleared n < 2 ^ 32 :=
  clearBit_lt_two_pow _ _ (clearBit_lt_two_pow _ _ (clearBit_lt_two_pow _ _ hn))

set_option maxHeartbeats 1600000 in
theorem sync_main_eq (env : MouseEnv) (s : PointerState) (w : Nat)
    (hw : s.mouse_window = some w) (hb : s.mouse_buttons < 2 ^ 32) :
    HandleMouseSync env s =
      ((HandleMouseMove env
          (syncReset { s with mouse_buttons := lowCleared s.mouse_buttons })
          env.mouseLocation).1,
       syncReleases s w ++
         (HandleMouseMove env
            (syncReset { s with mouse_buttons := lowCleared s.mouse_buttons })
            env.mouseLocation).2) := by
  have t01 : (clearBit s.mouse_buttons 0).testBit 1 =
      s.mouse_buttons.testBit 1 :=
    testBit_clearBit_ne _ 0 1 (by decide) (by decide)
  have t12 : ∀ n : Nat, (clearBit n 1).testBit 2 = n.testBit 2 :=
    fun n => testBit_clearBit_ne n 1 2 (by decide) (by decide)
  have t02 : ∀ n : Nat, (clearBit n 0).testBit 2 = n.testBit 2 :=
    fun n => testBit_clearBit_ne n 0 2 (by decide) (by decide)
  have lt0 : clearBit s.mouse_buttons 0 < 2 ^ 32 :=
    clearBit_lt_two_pow _ _ hb
  have lt01 : clearBit (clearBit s.mouse_buttons 0) 1 < 2 ^ 32 :=
    clearBit_lt_two_pow _ _ lt0
  have lt1 : clearBit s.mouse_buttons 1 < 2 ^ 32 :=
    clearBit_lt_two_pow _ _ hb
  simp only [HandleMouseSync, hw]
  rcases h0 : s.mouse_buttons.testBit 0 <;>
  rcases h1 : s.mouse_buttons.testBit 1 <;>
  rcases h2 : s.mouse_buttons.testBit 2 <;>
  simp_all [lowCleared, syncReleases, syncReset, List.foldl_cons,
    List.foldl_nil, testBit_clearBit_ne, testBit_clearBit_self,
    clearBit_noop, clearBit_lt_two_pow]


/-- A state with button 5 = bits 0 and 2 down in window 1, control-click
pending, for the C4 witness. -/
def c4ws : PointerState :=
  { initPointerState with
      mouse_buttons := 5
      mouse_window := some 1
      mouse_grabbed := true
      mouse_was_control_click := true }

/-- A reachable state with button 3 down in window 1: move the mouse
over window 1, then press button 3. -/
def c4s : PointerState :=
  runEnd initPointerState
    [(envW1, MouseOp.move ⟨0, 0⟩), (envW1, MouseOp.press 3)]

/-- Counterexample to C4 as stated: in `c4s` button bit 3 is set and a
mouse window is current, yet `HandleMouseSync` leaves that bit set and
emits no synthesized release for it — so not every set button bit is
cleared and released by a sync. -/
theorem sync_leaves_high_button_set :
    c4s.mouse_buttons ≠ 0 ∧
    (HandleMouseSync envW1 c4s).1.mouse_buttons ≠ 0 ∧
    ∀ e ∈ (HandleMouseSync envW1 c4s).2, e ≠ MouseEv.mouseRelease 1 3 true := by
  decide

/-! ### C8: at most one drag per press/release cycle -/

/-- Whether a notification is a "drag". -/
def isDragEv : MouseEv → Bool
  | MouseEv.mouseDrag _ _ => true
  | _ => false

/-- Whether a notification list contains a "drag". -/
def hasDrag (evs : List MouseEv) : Bool := evs.any isDragEv

/-- The operations of the claimed sequences: button press/release (with
a sane button index: `1 << b` is undefined in C for `b ≥ 32`) and
motion. -/
def dragOpOK : MouseOp → Bool
  | MouseOp.press b => decide (b < 32)
  | MouseOp.release b => decide (b < 32)
  | MouseOp.move _ => true
  | _ => false

theorem isDragEv_iff (e : MouseEv) :
    isDragEv e = true ↔ ∃ w b, e = MouseEv.mouseDrag w b := by
  cases e <;> simp [isDragEv]

/-- A drag emitted by the motion tail certifies the latch condition:
buttons down, no drag in progress, displacement from the last click at
least the drag threshold; and its button is the last-click button. -/
theorem tail_drag_mem (env : MouseEnv) (s : PointerState) (p : MCPoint)
    (c : Bool) (w b : Nat)
    (hm : MouseEv.mouseDrag w b ∈ (HandleMouseMoveTail env s p c).2) :
    s.mouse_buttons ≠ 0 ∧ s.mouse_drag_button = dragNone ∧
    ((p.x - s.mouse_last_click_screen_position.x).natAbs ≥ env.dragdelta ∨
     (p.y - s.mouse_last_click_screen_position.y).natAbs ≥ env.dragdelta) ∧
    b = s.mouse_last_click_button := by
  unfold HandleMouseMoveTail at hm
  rcases hw : s.mouse_window with _ | w0
  · simp [hw] at hm
  · simp only [hw] at hm
    split_ifs at hm <;> simp_all

/-- The motion tail emits no drag when one is already in progress, and
never changes the drag latch in that case. -/
theorem tail_drag_keep (env : MouseEnv) (s : PointerState) (p : MCPoint)
    (c : Bool) (h : s.mouse_drag_button ≠ dragNone) :
    (HandleMouseMoveTail env s p c).1.mouse_drag_button = s.mouse_drag_button := by
  unfold HandleMouseMoveTail
  rcases hw : s.mouse_window with _ | w0
  · simp [hw]
  · simp only [hw]
    split_ifs <;> simp_all

/-- If the motion tail emits a drag, the latch is set to the last-click
button afterwards. -/
theorem tail_drag_latch (env : MouseEnv) (s : PointerState) (p : MCPoint)
    (c : Bool) (hd : hasDrag (HandleMouseMoveTail env s p c).2 = true) :
    (HandleMouseMoveTail env s p c).1.mouse_drag_button =
      s.mouse_last_click_button := by
  unfold HandleMouseMoveTail at hd ⊢
  rcases hw : s.mouse_window with _ | w0
  · simp [hw, hasDrag] at hd
  · simp only [hw] at hd ⊢
    split_ifs at hd ⊢ <;> simp_all [hasDrag, isDragEv]

/-- The motion tail never changes the last-click button. -/
theorem tail_last_click (env : MouseEnv) (s : PointerState) (p : MCPoint)
    (c : Bool) :
    (HandleMouseMoveTail env s p c).1.mouse_last_click_button =
      s.mouse_last_click_button := by
  unfold HandleMouseMoveTail
  rcases hw : s.mouse_window with _ | w0
  · simp [hw]
  · simp only [hw]
    split_ifs <;> simp

/-- The motion tail never changes the button bitmask. -/
theorem tail_buttons (env : MouseEnv) (s : PointerState) (p : MCPoint)
    (c : Bool) :
    (HandleMouseMoveTail env s p c).1.mouse_buttons = s.mouse_buttons := by
  unfold HandleMouseMoveTail
  rcases hw : s.mouse_window with _ | w0
  · simp [hw]
  · simp only [hw]
    split_ifs <;> simp

/-- The enter/leave block of `HandleMouseMove` contains no drag, so a
drag of a motion step comes from its tail, whose state differs from the
initial state of the step only in the stored window. -/
theorem move_drag_mem (env : MouseEnv) (s : PointerState) (p : MCPoint)
    (w b : Nat) (hm : MouseEv.mouseDrag w b ∈ (HandleMouseMove env s p).2) :
    s.mouse_buttons ≠ 0 ∧ s.mouse_drag_button = dragNone ∧
    ((p.x - s.mouse_last_click_screen_position.x).natAbs ≥ env.dragdelta ∨
     (p.y - s.mouse_last_click_screen_position.y).natAbs ≥ env.dragdelta) ∧
    b = s.mouse_last_click_button := by
  simp only [HandleMouseMove] at hm
  revert hm
  generalize (if s.mouse_grabbed = true then s.mouse_window
    else env.windowAt p) = nw
  intro hm
  split at hm
  · exact tail_drag_mem env s p false w b hm
  · simp only [List.mem_append] at hm
    rcases hm with ((((hm | hm) | hm) | hm) | hm) | hm
    · split at hm <;> simp_all
    · split at hm <;> simp_all
    · split at hm <;> simp_all
    · split at hm <;> simp_all
    · split at hm <;> simp_all
    · have h2 := tail_drag_mem env _ p true w b hm
      simpa using h2

theorem hasDrag_append (a b : List MouseEv) :
    hasDrag (a ++ b) = (hasDrag a || hasDrag b) := by
  simp [hasDrag]

theorem hasDrag_iff_mem (evs : List MouseEv) :
    hasDrag evs = true ↔ ∃ w b, MouseEv.mouseDrag w b ∈ evs := by
  constructor
  · intro h
    obtain ⟨e, he, hde⟩ := List.any_eq_true.mp h
    obtain ⟨w, b, rfl⟩ := (isDragEv_iff e).mp hde
    exact ⟨w, b, he⟩
  · rintro ⟨w, b, h⟩
    exact List.any_eq_true.mpr ⟨_, h, by simp [isDragEv]⟩

/-- Every motion step is an enter/leave block (which contains no drag)
followed by the motion tail run on the state with the resolved window
stored. -/
theorem move_decomp (env : MouseEnv) (s : PointerState) (p : MCPoint) :
    ∃ (nw : Option Nat) (c : Bool) (pre : List MouseEv),
      HandleMouseMove env s p =
        ((HandleMouseMoveTail env { s with mouse_window := nw } p c).1,
         pre ++ (HandleMouseMoveTail env { s with mouse_window := nw } p c).2) ∧
      hasDrag pre = false := by
  by_cases hc : (if s.mouse_grabbed = true then s.mouse_window
      else env.windowAt p) = s.mouse_window
  · refine ⟨s.mouse_window, false, [], ?_, rfl⟩
    simp [HandleMouseMove, hc]
  · refine ⟨(if s.mouse_grabbed = true then s.mouse_window
        else env.windowAt p), true,
      (match s.mouse_window with
       | some w => [MouseEv.mouseLeave w]
       | none => []) ++
      ((match (if s.mouse_grabbed = true then s.mouse_window
          else env.windowAt p) with
        | some w => [MouseEv.mouseEnter w]
        | none => []) ++
       ((if (if s.mouse_grabbed = true then s.mouse_window
            else env.windowAt p) = none ∧ s.mouse_cursor_locked = false then
           [MouseEv.resetCursor]
         else []) ++
        ((match s.mouse_window with
          | some w => [MouseEv.releaseWin w]
          | none => []) ++
         (match (if s.mouse_grabbed = true then s.mouse_window
             else env.windowAt p) with
          | some w => [MouseEv.retainWin w]
          | none => [])))), ?_, ?_⟩
    · simp only [HandleMouseMove]
      rw [if_neg hc]
      simp [List.append_assoc]
    · unfold hasDrag
      rw [List.any_eq_false]
      intro x hx
      simp only [List.mem_append] at hx
      rcases hx with hx | hx | hx | hx | hx <;>
        (split at hx <;> simp_all [isDragEv])

/-- A motion step never changes the button bitmask. -/
theorem move_buttons (env : MouseEnv) (s : PointerState) (p : MCPoint) :
    (HandleMouseMove env s p).1.mouse_buttons = s.mouse_buttons := by
  obtain ⟨nw, c, pre, heq, _⟩ := move_decomp env s p
  rw [heq]
  simpa using tail_buttons env { s with mouse_window := nw } p c

/-- C4 (amended): with a mouse window current, `HandleMouseSync` equals
one step that clears exactly the set bits among buttons 0-2 (emitting
for each a release flagged as synthesized, a control-click primary press
remapped to the tertiary index), resets grab, drag-button, click-count
and click-time tracking (`syncReset`) and re-runs motion handling at the
OS-reported pointer position; in the resulting state bits 0-2 of the
button mask are clear while bits 3 and above keep their old value, and
every release notification the sync emits carries a button index below
3 (so bits 3 and above get no release). -/
theorem sync_clears_low_buttons (env : MouseEnv) (s : PointerState) (w : Nat)
    (hw : s.mouse_window = some w) (hb : s.mouse_buttons < 2 ^ 32) :
    HandleMouseSync env s =
      ((HandleMouseMove env
          (syncReset { s with mouse_buttons := lowCleared s.mouse_buttons })
          env.mouseLocation).1,
       syncReleases s w ++
         (HandleMouseMove env
            (syncReset { s with mouse_buttons := lowCleared s.mouse_buttons })
            env.mouseLocation).2) ∧
    (HandleMouseSync env s).1.mouse_buttons = lowCleared s.mouse_buttons ∧
    (∀ i, i < 3 →
      (HandleMouseSync env s).1.mouse_buttons.testBit i = false) ∧
    (∀ i, 3 ≤ i →
      (HandleMouseSync env s).1.mouse_buttons.testBit i =
        s.mouse_buttons.testBit i) ∧
    (∀ w2 b2 syn, MouseEv.mouseRelease w2 b2 syn ∈ (HandleMouseSync env s).2 →
      b2 < 3) := by
  have hmain := sync_main_eq env s w hw hb
  have hbtn : (HandleMouseSync env s).1.mouse_buttons =
      lowCleared s.mouse_buttons := by
    rw [hmain]
    rw [show ((HandleMouseMove env
        (syncReset { s with mouse_buttons := lowCleared s.mouse_buttons })
        env.mouseLocation).1,
        syncReleases s w ++
          (HandleMouseMove env
            (syncReset { s with mouse_buttons := lowCleared s.mouse_buttons })
            env.mouseLocation).2).1 =
      (HandleMouseMove env
        (syncReset { s with mouse_buttons := lowCleared s.mouse_buttons })
        env.mouseLocation).1 from rfl]
    rw [move_buttons]
    simp [syncReset]
  refine ⟨hmain, hbtn, ?_, ?_, ?_⟩
  · intro i hi
    rw [hbtn]
    unfold lowCleared
    interval_cases i
    · rw [testBit_clearBit_ne _ 2 0 (by decide) (by decide),
        testBit_clearBit_ne _ 1 0 (by decide) (by decide),
        testBit_clearBit_self _ 0 (by decide)]
    · rw [testBit_clearBit_ne _ 2 1 (by decide) (by decide),
        testBit_clearBit_self _ 1 (by decide)]
    · rw [testBit_clearBit_self _ 2 (by decide)]
  · intro i hi3
    rw [hbtn]
    by_cases hi32 : i < 32
    · unfold lowCleared
      rw [testBit_clearBit_ne _ 2 i (by omega) hi32,
        testBit_clearBit_ne _ 1 i (by omega) hi32,
        testBit_clearBit_ne _ 0 i (by omega) hi32]
    · have h32 : (2 : ℕ) ^ 32 ≤ 2 ^ i :=
        Nat.pow_le_pow_right (by norm_num) (le_of_not_lt hi32)
      rw [Nat.testBit_eq_false_of_lt
          (lt_of_lt_of_le (lowCleared_lt_two_pow _ hb) h32),
        Nat.testBit_eq_false_of_lt (lt_of_lt_of_le hb h32)]
  · intro w2 b2 syn hm
    rw [hmain] at hm
    rcases List.mem_append.mp hm with hm2 | hm2
    · simp only [syncReleases, List.mem_map, List.mem_filter] at hm2
      obtain ⟨i, ⟨hi, _⟩, heq⟩ := hm2
      have hb2 : b2 = if s.mouse_was_control_click ∧ i = 0 then 2 else i := by
        have := heq
        simp only [MouseEv.mouseRelease.injEq] at this
        exact this.2.1.symm
      rw [hb2]
      split_ifs
      · decide
      · simp only [List.mem_cons, List.mem_singleton] at hi
        rcases hi with rfl | rfl | hi
        · decide
        · decide
        · simp at hi
          omega
    · exact absurd hm2 (move_no_release env _ env.mouseLocation w2 b2 syn)

/-- Witness for C4 (amended) at `c4ws`: window 1 current, buttons 0 and
2 down with a control-click pending. -/
theorem sync_clears_low_buttons_witness :
    (c4ws.mouse_window = some 1 ∧ c4ws.mouse_buttons < 2 ^ 32) ∧
    (HandleMouseSync envW1 c4ws =
      ((HandleMouseMove envW1
          (syncReset { c4ws with mouse_buttons := lowCleared c4ws.mouse_buttons })
          envW1.mouseLocation).1,
       syncReleases c4ws 1 ++
         (HandleMouseMove envW1
            (syncReset { c4ws with mouse_buttons := lowCleared c4ws.mouse_buttons })
            envW1.mouseLocation).2) ∧
     (HandleMouseSync envW1 c4ws).1.mouse_buttons =
       lowCleared c4ws.mouse_buttons ∧
     (∀ i, i < 3 →
       (HandleMouseSync envW1 c4ws).1.mouse_buttons.testBit i = false) ∧
     (∀ i, 3 ≤ i →
       (HandleMouseSync envW1 c4ws).1.mouse_buttons.testBit i =
         c4ws.mouse_buttons.testBit i) ∧
     (∀ w2 b2 syn,
       MouseEv.mouseRelease w2 b2 syn ∈ (HandleMouseSync envW1 c4ws).2 →
       b2 < 3)) :=
  ⟨⟨by decide, by decide⟩,
   sync_clears_low_buttons envW1 c4ws 1 (by decide) (by decide)⟩

/-- A motion step never changes the last-click button. -/
theorem move_last_click (env : MouseEnv) (s : PointerState) (p : MCPoint) :
    (HandleMouseMove env s p).1.mouse_last_click_button =
      s.mouse_last_click_button := by
  obtain ⟨nw, c, pre, heq, _⟩ := move_decomp env s p
  rw [heq]
  simpa using tail_last_click env { s with mouse_window := nw } p c

/-- A motion step keeps the drag latch once it is set. -/
theorem move_drag_keep (env : MouseEnv) (s : PointerState) (p : MCPoint)
    (h : s.mouse_drag_button ≠ dragNone) :
    (HandleMouseMove env s p).1.mouse_drag_button = s.mouse_drag_button := by
  obtain ⟨nw, c, pre, heq, _⟩ := move_decomp env s p
  rw [heq]
  simpa using tail_drag_keep env { s with mouse_window := nw } p c (by simpa)

/-- A motion step that emits a drag latches the last-click button. -/
theorem move_drag_latch (env : MouseEnv) (s : PointerState) (p : MCPoint)
    (hd : hasDrag (HandleMouseMove env s p).2 = true) :
    (HandleMouseMove env s p).1.mouse_drag_button =
      s.mouse_last_click_button := by
  obtain ⟨nw, c, pre, heq, hpre⟩ := move_decomp env s p
  rw [heq] at hd ⊢
  simp only [hasDrag_append, hpre, Bool.false_or] at hd
  simpa using tail_drag_latch env { s with mouse_window := nw } p c hd

theorem hasDrag_nil : hasDrag [] = false := rfl

theorem hasDrag_down (w b c : Nat) :
    hasDrag [MouseEv.mouseDown w b c] = false := rfl

theorem hasDrag_up (w b c : Nat) :
    hasDrag [MouseEv.mouseUp w b c] = false := rfl

theorem hasDrag_rel (w b : Nat) (syn : Bool) :
    hasDrag [MouseEv.mouseRelease w b syn] = false := rfl

/-- A button transition never emits a drag. -/
theorem press_hasDrag_false (env : MouseEnv) (s : PointerState) (b : Nat)
    (n : Bool) : hasDrag (HandleMousePress env s b n).2 = false := by
  by_cases h1 : n = s.mouse_buttons.testBit b
  · simp [HandleMousePress, h1, hasDrag]
  by_cases h2 : n = true ∧ s.mouse_window = none
  · simp [HandleMousePress, h1, h2, hasDrag]
  simp only [HandleMousePress, if_neg h1, if_neg h2]
  rcases hw : s.mouse_window with _ | w <;>
  simp [hw, apply_ite (Prod.snd : PointerState × List MouseEv → List MouseEv),
    apply_ite hasDrag, apply_ite PointerState.mouse_window, ite_self,
    hasDrag_nil, hasDrag_down, hasDrag_up, hasDrag_rel]

set_option maxHeartbeats 1000000 in
/-- A button transition that leaves some button down keeps the drag
latch. -/
theorem press_drag_keep (env : MouseEnv) (s : PointerState) (b : Nat) (n : Bool)
    (h : s.mouse_drag_button ≠ dragNone)
    (hnz : (HandleMousePress env s b n).1.mouse_buttons ≠ 0) :
    (HandleMousePress env s b n).1.mouse_drag_button ≠ dragNone := by
  have hz2 := lor_shift_ne_zero s.mouse_buttons b
  cases n
  · rcases hw : s.mouse_window with _ | w <;>
    by_cases h1 : s.mouse_buttons.testBit b = false <;>
    by_cases hb0 : b = 0 <;>
    by_cases hz : clearBit s.mouse_buttons b = 0 <;>
    simp_all [HandleMousePress,
      apply_ite (Prod.fst : PointerState × List MouseEv → PointerState),
      apply_ite PointerState.mouse_drag_button,
      apply_ite PointerState.mouse_buttons] <;>
    (try (split_ifs at hnz ⊢ <;> simp_all))
  · rcases hw : s.mouse_window with _ | w <;>
    by_cases h1 : s.mouse_buttons.testBit b = false <;>
    by_cases hb0 : b = 0 <;>
    by_cases hm : s.mouse_modifiers &&& kMCPlatformModifierCommand = 0 <;>
    simp_all [HandleMousePress,
      apply_ite (Prod.fst : PointerState × List MouseEv → PointerState),
      apply_ite PointerState.mouse_drag_button,
      apply_ite PointerState.mouse_buttons] <;>
    (try (split_ifs at hnz ⊢ <;> simp_all))

set_option maxHeartbeats 1000000 in
/-- A button transition with a sane button index keeps the last-click
button sane. -/
theorem press_last_click_small (env : MouseEnv) (s : PointerState) (b : Nat)
    (n : Bool) (hb32 : b < 32) (h : s.mouse_last_click_button < 32) :
    (HandleMousePress env s b n).1.mouse_last_click_button < 32 := by
  have hz2 := lor_shift_ne_zero s.mouse_buttons b
  cases n
  · rcases hw : s.mouse_window with _ | w <;>
    by_cases h1 : s.mouse_buttons.testBit b = false <;>
    by_cases hb0 : b = 0 <;>
    by_cases hz : clearBit s.mouse_buttons b = 0 <;>
    simp_all [HandleMousePress,
      apply_ite (Prod.fst : PointerState × List MouseEv → PointerState),
      apply_ite PointerState.mouse_last_click_button] <;>
    (try (split_ifs <;> simp_all))
  · rcases hw : s.mouse_window with _ | w <;>
    by_cases h1 : s.mouse_buttons.testBit b = false <;>
    by_cases hb0 : b = 0 <;>
    by_cases hm : s.mouse_modifiers &&& kMCPlatformModifierCommand = 0 <;>
    simp_all [HandleMousePress,
      apply_ite (Prod.fst : PointerState × List MouseEv → PointerState),
      apply_ite PointerState.mouse_last_click_button] <;>
    (try (split_ifs <;> simp_all))

/-- A step emitting a drag requires that no drag was in progress. -/
theorem step_drag_requires_none (env : MouseEnv) (s : PointerState)
    (op : MouseOp) (hop : dragOpOK op = true)
    (hd : hasDrag (mouseStep env s op).2 = true) :
    s.mouse_drag_button = dragNone := by
  rcases op with b | b | p | w | _ | _
  · rw [show (mouseStep env s (MouseOp.press b)).2 =
        (HandleMousePress env s b true).2 from rfl,
      press_hasDrag_false] at hd
    exact absurd hd (by simp)
  · rw [show (mouseStep env s (MouseOp.release b)).2 =
        (HandleMousePress env s b false).2 from rfl,
      press_hasDrag_false] at hd
    exact absurd hd (by simp)
  · obtain ⟨w, bb, hm⟩ :=
      (hasDrag_iff_mem (HandleMouseMove env s p).2).mp hd
    exact (move_drag_mem env s p w bb hm).2.1
  · simp [dragOpOK] at hop
  · simp [dragOpOK] at hop
  · simp [dragOpOK] at hop

/-- A step emitting a drag leaves the drag latch set. -/
theorem step_drag_latch_ne (env : MouseEnv) (s : PointerState) (op : MouseOp)
    (hop : dragOpOK op = true) (hlast : s.mouse_last_click_button < 32)
    (hd : hasDrag (mouseStep env s op).2 = true) :
    (mouseStep env s op).1.mouse_drag_button ≠ dragNone := by
  rcases op with b | b | p | w | _ | _
  · rw [show (mouseStep env s (MouseOp.press b)).2 =
        (HandleMousePress env s b true).2 from rfl,
      press_hasDrag_false] at hd
    exact absurd hd (by simp)
  · rw [show (mouseStep env s (MouseOp.release b)).2 =
        (HandleMousePress env s b false).2 from rfl,
      press_hasDrag_false] at hd
    exact absurd hd (by simp)
  · have h := move_drag_latch env s p hd
    rw [show (mouseStep env s (MouseOp.move p)).1 =
        (HandleMouseMove env s p).1 from rfl, h]
    unfold dragNone
    omega
  · simp [dragOpOK] at hop
  · simp [dragOpOK] at hop
  · simp [dragOpOK] at hop

/-- A step that leaves some button down keeps the drag latch. -/
theorem step_drag_keep (env : MouseEnv) (s : PointerState) (op : MouseOp)
    (hop : dragOpOK op = true) (h : s.mouse_drag_button ≠ dragNone)
    (hnz : (mouseStep env s op).1.mouse_buttons ≠ 0) :
    (mouseStep env s op).1.mouse_drag_button ≠ dragNone := by
  rcases op with b | b | p | w | _ | _
  · exact press_drag_keep env s b true h hnz
  · exact press_drag_keep env s b false h hnz
  · rw [show (mouseStep env s (MouseOp.move p)).1 =
        (HandleMouseMove env s p).1 from rfl, move_drag_keep env s p h]
    exact h
  · simp [dragOpOK] at hop
  · simp [dragOpOK] at hop
  · simp [dragOpOK] at hop

/-- A step keeps the last-click button sane. -/
theorem step_last_small (env : MouseEnv) (s : PointerState) (op : MouseOp)
    (hop : dragOpOK op = true) (h : s.mouse_last_click_button < 32) :
    (mouseStep env s op).1.mouse_last_click_button < 32 := by
  rcases op with b | b | p | w | _ | _
  · exact press_last_click_small env s b true (by simpa [dragOpOK] using hop) h
  · exact press_last_click_small env s b false (by simpa [dragOpOK] using hop) h
  · rw [show (mouseStep env s (MouseOp.move p)).1 =
        (HandleMouseMove env s p).1 from rfl, move_last_click env s p]
    exact h
  · simp [dragOpOK] at hop
  · simp [dragOpOK] at hop
  · simp [dragOpOK] at hop

theorem runEnd_cons (s : PointerState) (st : MouseEnv × MouseOp)
    (rest : List (MouseEnv × MouseOp)) :
    runEnd s (st :: rest) = runEnd (mouseStep st.1 s st.2).1 rest := rfl

theorem runEnd_append (s : PointerState) (a b : List (MouseEnv × MouseOp)) :
    runEnd s (a ++ b) = runEnd (runEnd s a) b := by
  simp [runEnd, List.foldl_append]

theorem runTrace_cons (s : PointerState) (st : MouseEnv × MouseOp)
    (rest : List (MouseEnv × MouseOp)) :
    runTrace s (st :: rest) =
      ((mouseStep st.1 s st.2).1, (mouseStep st.1 s st.2).2) ::
        runTrace (mouseStep st.1 s st.2).1 rest := rfl

theorem runTrace_append (s : PointerState) (a b : List (MouseEnv × MouseOp)) :
    runTrace s (a ++ b) = runTrace s a ++ runTrace (runEnd s a) b := by
  induction a generalizing s with
  | nil => simp [runTrace, runEnd]
  | cons st rest ih =>
    simp only [List.cons_append, runTrace_cons, runEnd_cons, ih]

theorem runTrace_length (s : PointerState) (l : List (MouseEnv × MouseOp)) :
    (runTrace s l).length = l.length := by
  induction l generalizing s with
  | nil => rfl
  | cons st rest ih => simp [runTrace_cons, ih]

/-- Split the trace of a run at any decomposition of the trace. -/
theorem runTrace_split (s : PointerState) (l : List (MouseEnv × MouseOp))
    (A B : List (PointerState × List MouseEv)) (h : runTrace s l = A ++ B) :
    runTrace s (l.take A.length) = A ∧
    runTrace (runEnd s (l.take A.length)) (l.drop A.length) = B := by
  have hsplit := List.take_append_drop A.length l
  have h1 : runTrace s l =
      runTrace s (l.take A.length) ++
        runTrace (runEnd s (l.take A.length)) (l.drop A.length) := by
    conv in runTrace s l => rw [← hsplit]
    exact runTrace_append s (l.take A.length) (l.drop A.length)
  have hlenA : (runTrace s (l.take A.length)).length = A.length := by
    rw [runTrace_length]
    have hl : l.length = A.length + B.length := by
      rw [← runTrace_length s l, h, List.length_append]
    rw [List.length_take, hl]
    omega
  have h2 : runTrace s (l.take A.length) ++
      runTrace (runEnd s (l.take A.length)) (l.drop A.length) = A ++ B :=
    h1.symm.trans h
  exact List.append_inj h2 hlenA

/-- Along a run in which the button bitmask never returns to zero, a set
drag latch stays set. -/
theorem drag_keep_run (l : List (MouseEnv × MouseOp)) :
    ∀ s : PointerState, (∀ st ∈ l, dragOpOK st.2 = true) →
      s.mouse_drag_button ≠ dragNone →
      (∀ x ∈ runTrace s l, x.1.mouse_buttons ≠ 0) →
      (runEnd s l).mouse_drag_button ≠ dragNone := by
  induction l with
  | nil =>
    intro s _ h _
    exact h
  | cons st rest ih =>
    intro s hops h hnz
    have h1 : (mouseStep st.1 s st.2).1.mouse_buttons ≠ 0 :=
      hnz _ (by rw [runTrace_cons]; exact List.mem_cons_self _ _)
    have h2 := step_drag_keep st.1 s st.2 (hops st (List.mem_cons_self _ _)) h h1
    rw [runEnd_cons]
    exact ih (mouseStep st.1 s st.2).1
      (fun y hy => hops y (List.mem_cons_of_mem _ hy)) h2
      (fun x hx => hnz x (by rw [runTrace_cons]; exact List.mem_cons_of_mem _ hx))

/-- Along a run of press/release/move operations the last-click button
stays sane. -/
theorem last_small_run (l : List (MouseEnv × MouseOp)) :
    ∀ s : PointerState, (∀ st ∈ l, dragOpOK st.2 = true) →
      s.mouse_last_click_button < 32 →
      (runEnd s l).mouse_last_click_button < 32 := by
  induction l with
  | nil =>
    intro s _ h
    exact h
  | cons st rest ih =>
    intro s hops h
    rw [runEnd_cons]
    exact ih (mouseStep st.1 s st.2).1
      (fun y hy => hops y (List.mem_cons_of_mem _ hy))
      (step_last_small st.1 s st.2 (hops st (List.mem_cons_self _ _)) h)

set_option maxHeartbeats 1000000 in
/-- C8 (amended: "exceeds the threshold" means "is at least the
threshold", as the source compares with `>=`): (1) for every sequence of
press/release/motion operations from the initial state, between any two
drag-emitting steps there is a step at or after the first of them, and
before the second, after which the button bitmask is zero — so within
one press/release cycle (bitmask non-zero span) at most one "drag" is
emitted; (2) a step emits a drag only if it is a motion step whose
displacement from the last click position is at least the configured
drag threshold on the x or y axis, and every drag it emits carries the
last-click button (which also becomes the latched drag button). -/
theorem drag_once_per_cycle :
    (∀ (steps : List (MouseEnv × MouseOp))
       (l₁ l₂ l₃ : List (PointerState × List MouseEv))
       (d₁ d₂ : PointerState × List MouseEv),
      (∀ st ∈ steps, dragOpOK st.2 = true) →
      runTrace initPointerState steps = l₁ ++ d₁ :: (l₂ ++ d₂ :: l₃) →
      hasDrag d₁.2 = true → hasDrag d₂.2 = true →
      ∃ x ∈ d₁ :: l₂, x.1.mouse_buttons = 0) ∧
    (∀ (env : MouseEnv) (s : PointerState) (op : MouseOp),
      dragOpOK op = true → hasDrag (mouseStep env s op).2 = true →
      ∃ p, op = MouseOp.move p ∧
        ((p.x - s.mouse_last_click_screen_position.x).natAbs ≥ env.dragdelta ∨
         (p.y - s.mouse_last_click_screen_position.y).natAbs ≥ env.dragdelta) ∧
        (∀ w b, MouseEv.mouseDrag w b ∈ (mouseStep env s op).2 →
          b = s.mouse_last_click_button)) := by
  constructor
  · intro steps l₁ l₂ l₃ d₁ d₂ hops htr hd1 hd2
    by_contra hno
    push_neg at hno
    have htr2 : runTrace initPointerState steps =
        (l₁ ++ [d₁]) ++ (l₂ ++ d₂ :: l₃) := by
      rw [htr]
      simp
    obtain ⟨hA, hB⟩ := runTrace_split _ _ _ _ htr2
    set t1 := steps.take (l₁ ++ [d₁]).length with ht1
    set t2 := steps.drop (l₁ ++ [d₁]).length with ht2
    have hops1 : ∀ st ∈ t1, dragOpOK st.2 = true :=
      fun st hst => hops st (List.take_subset _ _ hst)
    have hops2 : ∀ st ∈ t2, dragOpOK st.2 = true :=
      fun st hst => hops st (List.drop_subset _ _ hst)
    obtain ⟨hA1, hA2⟩ := runTrace_split _ _ _ _ hA
    set tPre := t1.take l₁.length with htPre
    set sPre := runEnd initPointerState tPre with hsPre
    have hlen1 : (t1.drop l₁.length).length = 1 := by
      have hh := runTrace_length sPre (t1.drop l₁.length)
      rw [hA2] at hh
      simpa using hh.symm
    obtain ⟨st1, hst1⟩ := List.length_eq_one.mp hlen1
    rw [hst1, runTrace_cons] at hA2
    have hd1eq : ((mouseStep st1.1 sPre st1.2).1,
        (mouseStep st1.1 sPre st1.2).2) = d₁ := by
      simpa [runTrace] using hA2
    have hop1 : dragOpOK st1.2 = true :=
      hops1 st1 (List.drop_subset _ _
        (by rw [hst1]; exact List.mem_cons_self _ _))
    have hlast : sPre.mouse_last_click_button < 32 :=
      last_small_run tPre initPointerState
        (fun st hst => hops1 st (List.take_subset _ _ hst)) (by decide)
    have hL : d₁.1.mouse_drag_button ≠ dragNone := by
      rw [← hd1eq]
      refine step_drag_latch_ne st1.1 sPre st1.2 hop1 hlast ?_
      rw [← hd1eq] at hd1
      exact hd1
    have ht1eq : tPre ++ [st1] = t1 := by
      have hh := List.take_append_drop l₁.length t1
      rw [hst1] at hh
      exact hh
    have hs2 : runEnd initPointerState t1 = d₁.1 := by
      rw [← ht1eq, runEnd_append, ← hsPre]
      show (mouseStep st1.1 sPre st1.2).1 = d₁.1
      rw [← hd1eq]
    obtain ⟨hB1, hB2⟩ := runTrace_split _ _ _ _ hB
    set t3 := t2.take l₂.length with ht3
    set s3 := runEnd (runEnd initPointerState t1) t3 with hs3
    have hkeep : s3.mouse_drag_button ≠ dragNone := by
      refine drag_keep_run t3 _
        (fun st hst => hops2 st (List.take_subset _ _ hst)) ?_ ?_
      · rw [hs2]
        exact hL
      · intro x hx
        rw [hB1] at hx
        exact hno x (List.mem_cons_of_mem _ hx)
    rcases hdrop : t2.drop l₂.length with _ | ⟨st2, rest2⟩
    · rw [hdrop] at hB2
      simp [runTrace] at hB2
    · rw [hdrop, runTrace_cons] at hB2
      have hd2eq : ((mouseStep st2.1 s3 st2.2).1,
          (mouseStep st2.1 s3 st2.2).2) = d₂ := by
        injection hB2 with hh _
      have hop2 : dragOpOK st2.2 = true :=
        hops2 st2 (List.drop_subset _ _
          (by rw [hdrop]; exact List.mem_cons_self _ _))
      refine absurd ?_ hkeep
      refine step_drag_requires_none st2.1 s3 st2.2 hop2 ?_
      rw [← hd2eq] at hd2
      exact hd2
  · intro env s op hop hd
    rcases op with b | b | p | w | _ | _
    · rw [show (mouseStep env s (MouseOp.press b)).2 =
          (HandleMousePress env s b true).2 from rfl,
        press_hasDrag_false] at hd
      exact absurd hd (by simp)
    · rw [show (mouseStep env s (MouseOp.release b)).2 =
          (HandleMousePress env s b false).2 from rfl,
        press_hasDrag_false] at hd
      exact absurd hd (by simp)
    · refine ⟨p, rfl, ?_, ?_⟩
      · obtain ⟨w, bb, hm⟩ :=
          (hasDrag_iff_mem (HandleMouseMove env s p).2).mp hd
        exact (move_drag_mem env s p w bb hm).2.2.1
      · intro w b hm
        exact (move_drag_mem env s p w b hm).2.2.2
    · simp [dragOpOK] at hop
    · simp [dragOpOK] at hop
    · simp [dragOpOK] at hop

/-- A run with two press/release cycles, each producing one drag:
move over window 1, press, drag out (10 ≥ 4), release, press again,
drag back. -/
def c8wSteps : List (MouseEnv × MouseOp) :=
  [(envW1, MouseOp.move ⟨0, 0⟩), (envW1, MouseOp.press 0),
   (envW1, MouseOp.move ⟨10, 0⟩), (envW1, MouseOp.release 0),
   (envW1, MouseOp.press 0), (envW1, MouseOp.move ⟨0, 0⟩)]

/-- The trace of `c8wSteps` and its slices around the two drag steps
(indices 2 and 5). -/
def c8wTrace : List (PointerState × List MouseEv) :=
  runTrace initPointerState c8wSteps

def c8wL1 : List (PointerState × List MouseEv) := c8wTrace.take 2

def c8wD1 : PointerState × List MouseEv := c8wTrace.getD 2 (initPointerState, [])

def c8wL2 : List (PointerState × List MouseEv) := (c8wTrace.drop 3).take 2

def c8wD2 : PointerState × List MouseEv := c8wTrace.getD 5 (initPointerState, [])

def c8wL3 : List (PointerState × List MouseEv) := []

/-- The state just before the first drag step of `c8wSteps`. -/
def c8wS2 : PointerState := runEnd initPointerState (c8wSteps.take 2)

/-- Witness for C8 at the concrete two-cycle run `c8wSteps`. -/
theorem drag_once_per_cycle_witness :
    ((∀ st ∈ c8wSteps, dragOpOK st.2 = true) ∧
      runTrace initPointerState c8wSteps =
        c8wL1 ++ c8wD1 :: (c8wL2 ++ c8wD2 :: c8wL3) ∧
      hasDrag c8wD1.2 = true ∧ hasDrag c8wD2.2 = true ∧
      (∃ x ∈ c8wD1 :: c8wL2, x.1.mouse_buttons = 0)) ∧
    (dragOpOK (MouseOp.move ⟨10, 0⟩) = true ∧
      hasDrag (mouseStep envW1 c8wS2 (MouseOp.move ⟨10, 0⟩)).2 = true ∧
      ∃ p, MouseOp.move (⟨10, 0⟩ : MCPoint) = MouseOp.move p ∧
        ((p.x - c8wS2.mouse_last_click_screen_position.x).natAbs ≥
            envW1.dragdelta ∨
         (p.y - c8wS2.mouse_last_click_screen_position.y).natAbs ≥
            envW1.dragdelta) ∧
        (∀ w b,
          MouseEv.mouseDrag w b ∈
            (mouseStep envW1 c8wS2 (MouseOp.move ⟨10, 0⟩)).2 →
          b = c8wS2.mouse_last_click_button)) :=
  ⟨⟨by decide, by decide, by decide, by decide,
    drag_once_per_cycle.1 c8wSteps c8wL1 c8wL2 c8wL3 c8wD1 c8wD2 (by decide)
      (by decide) (by decide) (by decide)⟩,
   ⟨by decide, by decide,
    drag_once_per_cycle.2 envW1 c8wS2 (MouseOp.move ⟨10, 0⟩) (by decide)
      (by decide)⟩⟩

/-- Move over window 1, press button 0 at (0,0), then move to (4,0):
displacement exactly the drag threshold 4. -/
def c8bSteps : List (MouseEnv × MouseOp) :=
  [(envW1, MouseOp.move ⟨0, 0⟩), (envW1, MouseOp.press 0),
   (envW1, MouseOp.move ⟨4, 0⟩)]

/-- The state just before the final motion step of `c8bSteps`. -/
def c8bS2 : PointerState := runEnd initPointerState (c8bSteps.take 2)

/-- Counterexample to C8 as stated: a motion step whose displacement
from the last click equals the drag threshold (so does not strictly
exceed it on either axis) emits a drag — the source compares with `>=`,
not `>`. -/
theorem drag_at_threshold_boundary :
    hasDrag (mouseStep envW1 c8bS2 (MouseOp.move ⟨4, 0⟩)).2 = true ∧
    ¬ ((((4 : Int) - c8bS2.mouse_last_click_screen_position.x).natAbs >
          envW1.dragdelta) ∨
       (((0 : Int) - c8bS2.mouse_last_click_screen_position.y).natAbs >
          envW1.dragdelta)) := by
  decide

end MacCore
